import Mathlib

/-!
Verification development for the semantic knowledge-base and retrieval
engine of a chat-assistant (source: `knowledge_base.py`).

Python strings are modelled as `List Char`; floating-point values
(embedding coordinates, distances, similarities, thresholds) are modelled
as exact rationals `ℚ`.  The sentence-embedding model is an abstract
deterministic function `List Char → List ℚ`; the FAISS `IndexFlatL2` is
modelled as the list of vectors it stores, with `search` returning the
nearest neighbour by squared Euclidean distance (only `distances[0][0]`
and `indices[0][0]` of the `k = 5` search are ever read by the code).

All definitions are structurally recursive so that concrete instances
evaluate inside the kernel.
-/

set_option maxRecDepth 10000

unseal Rat.add Rat.mul Rat.sub Rat.inv Rat.ofScientific

/-- Convert a Lean string literal to the `List Char` model of a Python `str`. -/
def chars (s : String) : List Char := s.toList

/-- Python whitespace for `str.strip()` (space, tab, newline, CR, VT, FF). -/
def isSpaceChar (c : Char) : Bool :=
  c == ' ' || c == '\t' || c == '\n' || c == '\r' || c.toNat == 11 || c.toNat == 12

/-- Python `s.strip()`: remove leading and trailing whitespace. -/
def trim (s : List Char) : List Char :=
  ((s.dropWhile isSpaceChar).reverse.dropWhile isSpaceChar).reverse

/-- Python `pat in s` (substring containment). -/
def hasSub (s pat : List Char) : Bool :=
  match s with
  | [] => pat.isEmpty
  | _ :: rest => List.isPrefixOf pat s || hasSub rest pat

/-- Scanner for Python `s.replace(pat, rep)` (non-empty `pat`): replace every
non-overlapping occurrence, scanning left to right.  The `Nat` argument
counts characters of a just-matched occurrence that remain to be consumed. -/
def replaceAllAux (pat rep : List Char) : List Char → Nat → List Char
  | [], _ => []
  | _ :: rest, skip + 1 => replaceAllAux pat rep rest skip
  | c :: rest, 0 =>
    if !pat.isEmpty && List.isPrefixOf pat (c :: rest) then
      rep ++ replaceAllAux pat rep rest (pat.length - 1)
    else
      c :: replaceAllAux pat rep rest 0

/-- Python `s.replace(pat, rep)` for a non-empty `pat`. -/
def replaceAll (pat rep s : List Char) : List Char :=
  replaceAllAux pat rep s 0

/-- Scanner for Python `s.split(pat)` (non-empty `pat`): split at every
non-overlapping occurrence, scanning left to right.  `skip` counts
characters of a just-matched occurrence still to consume; `cur` is the
current segment, reversed. -/
def splitOnPatAux (pat : List Char) : List Char → Nat → List Char → List (List Char)
  | [], _, cur => [cur.reverse]
  | _ :: rest, skip + 1, cur => splitOnPatAux pat rest skip cur
  | c :: rest, 0, cur =>
    if !pat.isEmpty && List.isPrefixOf pat (c :: rest) then
      cur.reverse :: splitOnPatAux pat rest (pat.length - 1) []
    else
      splitOnPatAux pat rest 0 (c :: cur)

/-- Python `s.split(pat)` for a non-empty `pat`. -/
def splitOnPat (pat s : List Char) : List (List Char) :=
  splitOnPatAux pat s 0 []

/-- Split a string at the first occurrence of `pat`: the part before the
occurrence, and `some` remainder after it (`none` if `pat` never occurs). -/
def breakOnPat (pat : List Char) : List Char → List Char × Option (List Char)
  | [] => ([], none)
  | c :: rest =>
    if !pat.isEmpty && List.isPrefixOf pat (c :: rest) then
      ([], some (rest.drop (pat.length - 1)))
    else
      ((c :: (breakOnPat pat rest).1), (breakOnPat pat rest).2)

/-- The literal marker `"Q:"`. -/
def qMarker : List Char := chars "Q:"

/-- The literal marker `"A:"`. -/
def aMarker : List Char := chars "A:"

/-- Apostrophe character, U+0027. -/
def apos : Char := Char.ofNat 39

/-- The fixed fallback returned when no index is present or the corpus is
empty (line 84 of the source): the message starting with I do-not-have
information about that topic, asking the user to contact a server admin. -/
def fallback_no_info : List Char :=
  chars "I don" ++ [apos] ++
    chars "t have information about that topic. Please contact a server admin."

/-- The fixed fallback returned on the below-threshold branch (line 106 of
the source): the message starting with I do-not-have a good answer for that
question. -/
def fallback_no_answer : List Char :=
  chars "I don" ++ [apos] ++
    chars "t have a good answer for that question. Please contact a server admin for help."

/-- State of a `KnowledgeBase` instance (`__init__`, lines 9-14): the
embedding model, the paired `questions`/`answers` lists, the optional
embedding matrix and the optional FAISS index (modelled by the list of
vectors it stores). -/
structure KnowledgeBase where
  model : List Char → List ℚ
  questions : List (List Char)
  answers : List (List Char)
  question_embeddings : Option (List (List ℚ))
  index : Option (List (List ℚ))

/-- The Q&A parser inside `load_training_data` (lines 22-31): split the
content on `"Q:"`, skip the first section, and for each section containing
`"A:"` emit `(section.split("A:")[0].strip(), section.split("A:")[1].strip())`
when both parts are non-empty. -/
def parse_qa_pairs (content : List Char) : List (List Char × List Char) :=
  ((splitOnPat qMarker content).drop 1).filterMap (fun sec =>
    if hasSub sec aMarker then
      let question := trim ((splitOnPat aMarker sec).getD 0 [])
      let answer := trim ((splitOnPat aMarker sec).getD 1 [])
      if question ≠ [] ∧ answer ≠ [] then some (question, answer) else none
    else none)

/-- `load_training_data` (lines 16-44), success path: the file was read and
yielded `content`; `questions` and `answers` are replaced wholesale and the
call returns `True`.  (The `FileNotFoundError`/`Exception` branches return
`False` and leave the state unchanged.) -/
def load_training_data (kb : KnowledgeBase) (content : List Char) :
    KnowledgeBase × Bool :=
  let qa_pairs := parse_qa_pairs content
  ({ kb with
      questions := qa_pairs.map Prod.fst,
      answers := qa_pairs.map Prod.snd }, true)

/-- `build_index` (lines 46-65): fail (returning `False`, state unchanged)
when `questions` is empty; otherwise recompute the embedding matrix from
`questions` and store the same vectors in a fresh `IndexFlatL2`. -/
def build_index (kb : KnowledgeBase) : KnowledgeBase × Bool :=
  if kb.questions = [] then (kb, false)
  else
    let emb := kb.questions.map kb.model
    ({ kb with question_embeddings := some emb, index := some emb }, true)

/-- `add_qa_pair` (lines 201-207): append the pair, then rebuild the index. -/
def add_qa_pair (kb : KnowledgeBase) (question answer : List Char) :
    KnowledgeBase :=
  (build_index
    { kb with
        questions := kb.questions ++ [question],
        answers := kb.answers ++ [answer] }).1

/-- The ordered `variations` table of `preprocess_query` (lines 114-187),
transcribed entry by entry in Python dict insertion order. -/
def variations : List (List Char × List Char) :=
  [ (chars "timezone of the server", chars "server timezone"),
    (chars "server timezone", chars "server timezone"),
    (chars "what timezone", chars "server timezone"),
    (chars "time zone", chars "timezone"),
    (chars "server time", chars "server timezone"),
    (chars "rules of the server", chars "server rules"),
    (chars "server rules", chars "server rules"),
    (chars "what are the rules", chars "server rules"),
    (chars "guidelines", chars "server rules"),
    (chars "how to start", chars "get started"),
    (chars "getting started", chars "get started"),
    (chars "new here", chars "get started"),
    (chars "beginner", chars "get started"),
    (chars "how to get roles", chars "get roles"),
    (chars "assign roles", chars "get roles"),
    (chars "role assignment", chars "get roles"),
    (chars "who are mods", chars "moderators"),
    (chars "admin", chars "moderators"),
    (chars "staff", chars "moderators"),
    (chars "report issue", chars "report problem"),
    (chars "report someone", chars "report problem"),
    (chars "complaint", chars "report problem"),
    (chars "voice channels", chars "voice channels"),
    (chars "vc", chars "voice channels"),
    (chars "voice chat", chars "voice channels"),
    (chars "invite friends", chars "invite friends"),
    (chars "add friends", chars "invite friends"),
    (chars "share server", chars "invite friends"),
    (chars "music bot", chars "music bot"),
    (chars "play music", chars "music bot"),
    (chars "songs", chars "music bot"),
    (chars "server events", chars "events"),
    (chars "activities", chars "events"),
    (chars "what events", chars "events"),
    (chars "suggest feature", chars "suggest new features"),
    (chars "ideas", chars "suggest new features"),
    (chars "feedback", chars "suggest new features"),
    (chars "rank up", chars "level up"),
    (chars "ranking", chars "level up"),
    (chars "experience", chars "level up"),
    (chars "create channel", chars "create my own channel"),
    (chars "new channel", chars "create my own channel"),
    (chars "tech help", chars "technical issues"),
    (chars "support", chars "technical issues"),
    (chars "problem", chars "technical issues") ]

/-- The `filler_words` list of `preprocess_query` (line 195). -/
def filler_words : List (List Char) :=
  [ chars "what is", chars "what are", chars "how do i", chars "can i",
    chars "could you", chars "please", chars "thank you", chars "thanks" ]

/-- `preprocess_query` (lines 108-199): lowercase, apply the ordered
variations table (each variant found as a substring of the possibly
already-rewritten text is replaced by its canonical phrase), remove filler
substrings, and strip the result. -/
def preprocess_query (query : List Char) : List Char :=
  let q1 := query.map Char.toLower
  let q2 := variations.foldl
    (fun acc p => if hasSub acc p.1 then replaceAll p.1 p.2 acc else acc) q1
  let q3 := filler_words.foldl (fun acc w => replaceAll w [] acc) q2
  trim q3

/-- Squared Euclidean distance between two vectors (the metric of
`IndexFlatL2`). -/
def sqDist (u v : List ℚ) : ℚ :=
  (List.zipWith (fun a b => (a - b) ^ 2) u v).sum

/-- Sentinel distance reported by FAISS for an absent result slot
(`FLT_MAX` as an exact rational). -/
def fltMax : ℚ := 2 ^ 128 - 2 ^ 104

/-- Linear scan of the stored vectors keeping the smallest squared distance
(earliest row on ties, as FAISS does). -/
def nnAux (q : List ℚ) : List (List ℚ) → Nat → ℚ × Int → ℚ × Int
  | [], _, best => best
  | v :: vs, i, best =>
    let d := sqDist q v
    if d < best.1 then nnAux q vs (i + 1) (d, (i : Int))
    else nnAux q vs (i + 1) best

/-- `index.search(query_embedding, k=5)` restricted to the single result
the code reads (`distances[0][0]`, `indices[0][0]`): the nearest stored
vector, as its squared distance and row index, or `(FLT_MAX, -1)` when the
index is empty. -/
def searchNN (vecs : List (List ℚ)) (q : List ℚ) : ℚ × Int :=
  match vecs with
  | [] => (fltMax, -1)
  | v :: vs => nnAux q vs 1 (sqDist q v, 0)

/-- Python list indexing `xs[i]` for an `int` index already known to
satisfy `i < len(xs)`: non-negative indices count from the front, negative
indices from the back. -/
def pyGet (xs : List (List Char)) (i : Int) : List Char :=
  if 0 ≤ i then xs.getD i.toNat []
  else xs.getD (xs.length - (-i).toNat) []

/-- The adjusted threshold of line 101: `max(threshold - 0.1, 0.5)`
(written with an explicit comparison so that concrete instances evaluate;
`adjusted_threshold_eq_max` below proves it equal to the lattice `max`). -/
def adjusted_threshold (threshold : ℚ) : ℚ :=
  if threshold - 1 / 10 < 1 / 2 then 1 / 2 else threshold - 1 / 10

/-- `find_best_answer` (lines 81-106) with the state threaded explicitly:
the method assigns to no field of `self`, so every branch returns the
input state unchanged alongside the `(answer, confidence)` pair. -/
def find_best_answer_st (kb : KnowledgeBase) (query : List Char)
    (threshold : ℚ) : KnowledgeBase × (List Char × ℚ) :=
  match kb.index with
  | none => (kb, (fallback_no_info, 0))
  | some vs =>
    if kb.questions = [] then (kb, (fallback_no_info, 0))
    else
      let processed_query := preprocess_query query
      let query_embedding := kb.model processed_query
      let res := searchNN vs query_embedding
      let best_distance := res.1
      let similarity := 1 / (1 + best_distance)
      if similarity ≥ adjusted_threshold threshold ∧
          res.2 < (kb.answers.length : Int) then
        (kb, (pyGet kb.answers res.2, similarity))
      else
        (kb, (fallback_no_answer, similarity))

/-- The `(answer, confidence)` pair returned by `find_best_answer`. -/
def find_best_answer (kb : KnowledgeBase) (query : List Char)
    (threshold : ℚ) : List Char × ℚ :=
  (find_best_answer_st kb query threshold).2

/-- States reachable from a freshly constructed `KnowledgeBase` (lines
9-14: empty corpus, no embeddings, no index) through the public operations.
A failed `load_training_data` leaves the state unchanged, so it needs no
constructor. -/
inductive Reachable (m : List Char → List ℚ) : KnowledgeBase → Prop
  | init : Reachable m ⟨m, [], [], none, none⟩
  | load {kb} (content : List Char) :
      Reachable m kb → Reachable m (load_training_data kb content).1
  | build {kb} :
      Reachable m kb → Reachable m (build_index kb).1
  | add {kb} (question answer : List Char) :
      Reachable m kb → Reachable m (add_qa_pair kb question answer)
  | query {kb} (q : List Char) (t : ℚ) :
      Reachable m kb → Reachable m (find_best_answer_st kb q t).1

/-- A concrete deterministic embedding model used in witnesses: each text
maps to the one-dimensional vector holding its length. -/
def mEx : List Char → List ℚ := fun s => [(s.length : ℚ)]

/-- A concrete Ready knowledge base used in witnesses: one question whose
`mEx`-embedding is the vector `[1]`, answered by the string x. -/
def kbEx : KnowledgeBase :=
  ⟨mEx, [chars "a"], [chars "x"], some [[1]], some [[1]]⟩

/-- Modelled from the spec, amended for C3: the text is split on `"Q:"`,
the first segment is discarded, and each subsequent segment in which
`"A:"` occurs yields the pair (text before the first `"A:"`, text strictly
BETWEEN the first and second `"A:"` — to the end of the segment when there
is no second occurrence), both trimmed, emitted only when both are
non-empty after trimming. -/
def parse_qa_spec (content : List Char) : List (List Char × List Char) :=
  ((splitOnPat qMarker content).drop 1).filterMap (fun sec =>
    match breakOnPat aMarker sec with
    | (_, none) => none
    | (pre, some rest) =>
      let question := trim pre
      let answer := trim (breakOnPat aMarker rest).1
      if question ≠ [] ∧ answer ≠ [] then some (question, answer) else none)

/-- Training content loaded first in the C2 scenario: one Q&A pair. -/
def content1 : List Char := chars "Q: a\nA: x"

/-- Training content loaded second in the C2 scenario: two Q&A pairs. -/
def content2 : List Char := chars "Q: ab\nA: x\nQ: cd\nA: y"

/-- The stale state of the C2 scenario: load one pair, build the index,
then load two pairs without rebuilding. -/
def kbStale : KnowledgeBase :=
  (load_training_data
    (build_index
      (load_training_data ⟨mEx, [], [], none, none⟩ content1).1).1
    content2).1

section SearchLemmas

lemma sqDist_nonneg (u v : List ℚ) : 0 ≤ sqDist u v := by
  induction u generalizing v with
  | nil => simp [sqDist]
  | cons a u ih =>
    cases v with
    | nil => simp [sqDist]
    | cons b v =>
      have h := ih v
      have h2 : (0 : ℚ) ≤ (a - b) ^ 2 := sq_nonneg _
      simp only [sqDist, List.zipWith_cons_cons, List.sum_cons] at *
      linarith

lemma nnAux_dist_nonneg (q : List ℚ) (vs : List (List ℚ)) (i : Nat)
    (best : ℚ × Int) (h : 0 ≤ best.1) : 0 ≤ (nnAux q vs i best).1 := by
  induction vs generalizing i best with
  | nil => simpa [nnAux] using h
  | cons v vs ih =>
    unfold nnAux
    by_cases hd : sqDist q v < best.1
    · simpa [hd] using ih (i + 1) (sqDist q v, (i : Int)) (sqDist_nonneg q v)
    · simpa [hd] using ih (i + 1) best h

lemma searchNN_dist_nonneg (vecs : List (List ℚ)) (q : List ℚ) :
    0 ≤ (searchNN vecs q).1 := by
  cases vecs with
  | nil =>
    unfold searchNN fltMax
    norm_num
  | cons v vs =>
    exact nnAux_dist_nonneg q vs 1 (sqDist q v, 0) (sqDist_nonneg q v)

lemma similarity_pos (d : ℚ) (h : 0 ≤ d) : 0 < 1 / (1 + d) := by
  have : (0 : ℚ) < 1 + d := by linarith
  positivity

lemma similarity_le_one (d : ℚ) (h : 0 ≤ d) : 1 / (1 + d) ≤ 1 := by
  have h1 : (0 : ℚ) < 1 + d := by linarith
  rw [div_le_one h1]
  linarith

lemma adjusted_threshold_eq_max (t : ℚ) :
    adjusted_threshold t = max (t - 1 / 10) (1 / 2) := by
  unfold adjusted_threshold
  rcases lt_or_le (t - 1 / 10) (1 / 2) with h | h
  · rw [if_pos h, max_eq_right h.le]
  · rw [if_neg (not_lt.mpr h), max_eq_left h]

lemma adjusted_threshold_low (t : ℚ) (h : t ≤ 6 / 10) :
    adjusted_threshold t = 1 / 2 := by
  unfold adjusted_threshold
  rcases lt_or_le (t - 1 / 10) (1 / 2) with hlt | hge
  · rw [if_pos hlt]
  · rw [if_neg (not_lt.mpr hge)]
    linarith

end SearchLemmas

section StateLemmas

lemma find_best_answer_st_fst (kb : KnowledgeBase) (q : List Char) (t : ℚ) :
    (find_best_answer_st kb q t).1 = kb := by
  unfold find_best_answer_st
  cases kb.index with
  | none => rfl
  | some vs =>
    simp only
    split
    · rfl
    · split <;> rfl

lemma build_index_questions (kb : KnowledgeBase) :
    (build_index kb).1.questions = kb.questions := by
  unfold build_index
  split <;> rfl

lemma build_index_twice (kb : KnowledgeBase) :
    (build_index (build_index kb).1).1 = (build_index kb).1 := by
  by_cases h : kb.questions = []
  · simp [build_index, h]
  · simp [build_index, h]

/-- In the Ready case the returned confidence is always the computed
similarity `1 / (1 + d)`, on the accept branch and on the below-threshold
fallback branch alike. -/
lemma find_best_answer_snd_ready (kb : KnowledgeBase) (q : List Char)
    (t : ℚ) (vs : List (List ℚ)) (h1 : kb.index = some vs)
    (h2 : ¬kb.questions = []) :
    (find_best_answer kb q t).2 =
      1 / (1 + (searchNN vs (kb.model (preprocess_query q))).1) := by
  unfold find_best_answer find_best_answer_st
  rw [h1]
  simp only [h2, if_false, ite_false]
  split <;> rfl

end StateLemmas

section SplitBridge

lemma splitOnPatAux_nil (pat : List Char) (k : Nat) (cur : List Char) :
    splitOnPatAux pat [] k cur = [cur.reverse] := rfl

lemma splitOnPatAux_succ (pat : List Char) (c : Char) (rest : List Char)
    (k : Nat) (cur : List Char) :
    splitOnPatAux pat (c :: rest) (k + 1) cur = splitOnPatAux pat rest k cur :=
  rfl

lemma splitOnPatAux_zero (pat : List Char) (c : Char) (rest cur : List Char) :
    splitOnPatAux pat (c :: rest) 0 cur =
      if !pat.isEmpty && List.isPrefixOf pat (c :: rest) then
        cur.reverse :: splitOnPatAux pat rest (pat.length - 1) []
      else
        splitOnPatAux pat rest 0 (c :: cur) := rfl

lemma breakOnPat_cons (pat : List Char) (c : Char) (rest : List Char) :
    breakOnPat pat (c :: rest) =
      if !pat.isEmpty && List.isPrefixOf pat (c :: rest) then
        ([], some (rest.drop (pat.length - 1)))
      else
        ((c :: (breakOnPat pat rest).1, (breakOnPat pat rest).2)) := rfl

/-- A positive `skip` counter just drops that many characters. -/
lemma splitOnPatAux_skip (pat : List Char) (k : Nat) (s cur : List Char) :
    splitOnPatAux pat s k cur = splitOnPatAux pat (s.drop k) 0 cur := by
  induction k generalizing s with
  | zero => rw [List.drop_zero]
  | succ k ih =>
    cases s with
    | nil => rfl
    | cons c rest =>
      rw [splitOnPatAux_succ, ih]
      rfl

/-- The split-scanner in terms of the first-occurrence decomposition: the
first segment is the text before the first occurrence, and the remaining
segments are the split of the text after it. -/
lemma splitOnPatAux_break (pat : List Char) (s cur : List Char) :
    splitOnPatAux pat s 0 cur =
      (cur.reverse ++ (breakOnPat pat s).1) ::
        (match (breakOnPat pat s).2 with
         | none => []
         | some r => splitOnPat pat r) := by
  induction s generalizing cur with
  | nil => simp [splitOnPatAux_nil, breakOnPat]
  | cons c rest ih =>
    rw [splitOnPatAux_zero, breakOnPat_cons]
    by_cases hc : (!pat.isEmpty && List.isPrefixOf pat (c :: rest)) = true
    · rw [if_pos hc, if_pos hc, splitOnPatAux_skip]
      simp [splitOnPat]
    · rw [if_neg hc, if_neg hc, ih]
      simp

lemma splitOnPat_getD_zero (pat s : List Char) :
    (splitOnPat pat s).getD 0 [] = (breakOnPat pat s).1 := by
  unfold splitOnPat
  rw [splitOnPatAux_break]
  simp

lemma splitOnPat_getD_one (pat s r : List Char)
    (h : (breakOnPat pat s).2 = some r) :
    (splitOnPat pat s).getD 1 [] = (breakOnPat pat r).1 := by
  unfold splitOnPat
  rw [splitOnPatAux_break, h]
  simpa using splitOnPat_getD_zero pat r

/-- Python substring containment test holds exactly when the
first-occurrence decomposition finds an occurrence (for non-empty `pat`). -/
lemma hasSub_eq_break_isSome (pat : List Char) (hne : pat ≠ []) (s : List Char) :
    hasSub s pat = (breakOnPat pat s).2.isSome := by
  induction s with
  | nil =>
    have : pat.isEmpty = false := by
      cases pat with
      | nil => exact absurd rfl hne
      | cons p ps => rfl
    simp [hasSub, breakOnPat, this]
  | cons c rest ih =>
    have hnotempty : pat.isEmpty = false := by
      cases pat with
      | nil => exact absurd rfl hne
      | cons p ps => rfl
    rw [breakOnPat_cons]
    by_cases hp : List.isPrefixOf pat (c :: rest) = true
    · rw [if_pos (by simp [hp, hnotempty])]
      simp [hasSub, hp]
    · have hp' : List.isPrefixOf pat (c :: rest) = false :=
        Bool.eq_false_iff.mpr hp
      rw [if_neg (by simp [hp'])]
      simp [hasSub, hp', ih]

lemma filterMap_congr_fun {α β : Type} {f g : α → Option β} (l : List α)
    (h : ∀ x, f x = g x) : l.filterMap f = l.filterMap g := by
  induction l with
  | nil => rfl
  | cons a l ih => simp [List.filterMap_cons, h a, ih]

end SplitBridge

/-- C1: for every knowledge-base state and every query, the confidence
returned by `find_best_answer` is exactly 0 if and only if the index is
absent or the questions list is empty; in every other case it equals
`1 / (1 + d)` for the nearest-neighbour squared distance `d ≥ 0` — also on
the below-threshold fallback branch — and therefore lies in `(0, 1]`. -/
theorem C1_confidence_zero_iff_unready (kb : KnowledgeBase) (q : List Char)
    (t : ℚ) :
    ((find_best_answer kb q t).2 = 0 ↔
      kb.index = none ∨ kb.questions = [])
  ∧ (∀ vs, kb.index = some vs → kb.questions ≠ [] →
      (find_best_answer kb q t).2 =
        1 / (1 + (searchNN vs (kb.model (preprocess_query q))).1)
      ∧ 0 < (find_best_answer kb q t).2
      ∧ (find_best_answer kb q t).2 ≤ 1) := by
  cases hi : kb.index with
  | none =>
    constructor
    · simp [find_best_answer, find_best_answer_st, hi]
    · intro vs hvs
      exact Option.noConfusion hvs
  | some vs0 =>
    by_cases hq : kb.questions = []
    · constructor
      · simp [find_best_answer, find_best_answer_st, hi, hq]
      · intro vs _ hq'
        exact absurd hq hq'
    · have hconf := find_best_answer_snd_ready kb q t vs0 hi hq
      have hd : 0 ≤ (searchNN vs0 (kb.model (preprocess_query q))).1 :=
        searchNN_dist_nonneg _ _
      have hpos := similarity_pos _ hd
      have hle := similarity_le_one _ hd
      constructor
      · constructor
        · intro h0
          rw [hconf] at h0
          exact absurd h0 (by intro h; rw [h] at hpos; exact lt_irrefl 0 hpos)
        · rintro (h | h)
          · exact Option.noConfusion h
          · exact absurd h hq
      · intro vs hvs hq'
        have hv : vs = vs0 := (Option.some.inj hvs).symm
        subst hv
        exact ⟨hconf, hconf ▸ hpos, hconf ▸ hle⟩

/-- Witness for C1 on a Ready knowledge base with a nonzero confidence. -/
theorem C1_witness :
    ((find_best_answer kbEx (chars "a") (7 / 10)).2 = 0 ↔
      kbEx.index = none ∨ kbEx.questions = [])
  ∧ ((find_best_answer kbEx (chars "a") (7 / 10)).2 =
      1 / (1 + (searchNN [[1]] (kbEx.model (preprocess_query (chars "a")))).1)
    ∧ 0 < (find_best_answer kbEx (chars "a") (7 / 10)).2
    ∧ (find_best_answer kbEx (chars "a") (7 / 10)).2 ≤ 1) :=
  ⟨(C1_confidence_zero_iff_unready kbEx (chars "a") (7 / 10)).1,
   (C1_confidence_zero_iff_unready kbEx (chars "a") (7 / 10)).2 [[1]] rfl
     (by decide)⟩

/-- C2 fails on the code: the state `kbStale` is reachable through the
public operations, a search is attempted on it (`index` present,
`questions` non-empty), the index holds 1 row while the questions list
holds 2 entries, yet `find_best_answer` neither rebuilds the index (the
state is returned unchanged) nor refuses: it searches the stale 1-row
index and returns the answer at row 0 with confidence 1. -/
theorem C2_stale_index_searched_without_rebuild :
    Reachable mEx kbStale
  ∧ kbStale.index = some [[1]]
  ∧ kbStale.questions.length = 2
  ∧ (find_best_answer_st kbStale (chars "a") (7 / 10)).1 = kbStale
  ∧ find_best_answer kbStale (chars "a") (7 / 10) = (chars "x", 1) :=
  ⟨Reachable.load content2
      (Reachable.build (Reachable.load content1 Reachable.init)),
   by decide, by decide,
   find_best_answer_st_fst kbStale (chars "a") (7 / 10),
   by decide⟩

/-- Counterexample to C3 as stated: on a segment containing the marker
twice, the parser emits as answer only the text between the first and
second occurrence (here the single letter x), not the entire remainder
that the claim predicts. -/
theorem C3_counterexample :
    parse_qa_pairs (chars "Q: q A: x A: y") = [(chars "q", chars "x")]
  ∧ parse_qa_pairs (chars "Q: q A: x A: y") ≠ [(chars "q", chars "x A: y")]
  ∧ chars "x" ≠ chars "x A: y" :=
  ⟨by decide, by decide, by decide⟩

/-- C3 (amended): for every input text, the corpus parser splits on
`"Q:"`, discards the first segment, and each subsequent segment containing
`"A:"` yields the pair (trimmed text before the first `"A:"`, trimmed text
strictly between the first and second `"A:"`, to the end if there is no
second occurrence), emitted only if both are non-empty after trimming —
equivalently, the source parser coincides with the amended spec parser. -/
theorem C3_parser_amended (content : List Char) :
    parse_qa_pairs content = parse_qa_spec content := by
  unfold parse_qa_pairs parse_qa_spec
  apply filterMap_congr_fun
  intro sec
  have hne : aMarker ≠ [] := by decide
  rcases hbk : breakOnPat aMarker sec with ⟨pre, ob⟩
  cases ob with
  | none =>
    have hs : hasSub sec aMarker = false := by
      rw [hasSub_eq_break_isSome aMarker hne, hbk]
      rfl
    simp [hs]
  | some r =>
    have hs : hasSub sec aMarker = true := by
      rw [hasSub_eq_break_isSome aMarker hne, hbk]
      rfl
    have h0 : (splitOnPat aMarker sec).getD 0 [] = pre := by
      rw [splitOnPat_getD_zero, hbk]
    have h1 : (splitOnPat aMarker sec).getD 1 [] = (breakOnPat aMarker r).1 := by
      apply splitOnPat_getD_one
      rw [hbk]
    rw [if_pos hs, h0, h1]

/-- C4: for every caller-supplied threshold `t` (exact rational
arithmetic), the effective acceptance bar of `find_best_answer` is
`max (t - 1/10) (1/2)`; in particular `t = 7/10` gives bar `6/10` and
`t = 55/100` gives bar `1/2`; and in the Ready state an answer is accepted
— i.e. the answer at the nearest row is returned with the computed
similarity — exactly when the similarity is `≥` this bar and the nearest
row index passes the range check of the code, `i < len(answers)`. -/
theorem C4_adjusted_threshold_policy (kb : KnowledgeBase) (q : List Char)
    (t : ℚ) (vs : List (List ℚ)) (h1 : kb.index = some vs)
    (h2 : kb.questions ≠ []) :
    adjusted_threshold t = max (t - 1 / 10) (1 / 2)
  ∧ adjusted_threshold (7 / 10) = 6 / 10
  ∧ adjusted_threshold (55 / 100) = 1 / 2
  ∧ (1 / (1 + (searchNN vs (kb.model (preprocess_query q))).1) ≥
        adjusted_threshold t
      ∧ (searchNN vs (kb.model (preprocess_query q))).2 <
          (kb.answers.length : Int) →
      find_best_answer kb q t =
        (pyGet kb.answers (searchNN vs (kb.model (preprocess_query q))).2,
         1 / (1 + (searchNN vs (kb.model (preprocess_query q))).1)))
  ∧ (¬(1 / (1 + (searchNN vs (kb.model (preprocess_query q))).1) ≥
        adjusted_threshold t
      ∧ (searchNN vs (kb.model (preprocess_query q))).2 <
          (kb.answers.length : Int)) →
      find_best_answer kb q t =
        (fallback_no_answer,
         1 / (1 + (searchNN vs (kb.model (preprocess_query q))).1))) := by
  refine ⟨adjusted_threshold_eq_max t, ?_, ?_, ?_, ?_⟩
  · rw [adjusted_threshold_eq_max, max_eq_left (by norm_num)]
    norm_num
  · rw [adjusted_threshold_eq_max, max_eq_right (by norm_num)]
  · intro hc
    unfold find_best_answer find_best_answer_st
    rw [h1]
    simp only [h2, if_false, ite_false]
    rw [if_pos hc]
  · intro hc
    unfold find_best_answer find_best_answer_st
    rw [h1]
    simp only [h2, if_false, ite_false]
    rw [if_neg hc]

/-- Witness for C4 on a Ready knowledge base whose query matches exactly
(distance 0, similarity 1, accepted at threshold 7/10). -/
theorem C4_witness :
    find_best_answer kbEx (chars "a") (7 / 10) = (chars "x", 1)
  ∧ adjusted_threshold (7 / 10) = 6 / 10
  ∧ adjusted_threshold (55 / 100) = 1 / 2 := by
  have h := C4_adjusted_threshold_policy kbEx (chars "a") (7 / 10) [[1]] rfl
    (by decide)
  refine ⟨?_, h.2.1, h.2.2.1⟩
  have ha := h.2.2.2.1 (by decide)
  rw [ha]
  decide

/-- C5: for every query string and every threshold, when the knowledge base
has no index or an empty questions list, `find_best_answer` returns exactly
the fixed no-information fallback string paired with confidence exactly
0.0, and it never raises an error in this state (the function is total). -/
theorem C5_uninitialized_returns_fixed_fallback (kb : KnowledgeBase)
    (q : List Char) (t : ℚ) (h : kb.index = none ∨ kb.questions = []) :
    find_best_answer kb q t = (fallback_no_info, 0) := by
  unfold find_best_answer find_best_answer_st
  rcases h with h | h
  · rw [h]
  · cases hi : kb.index with
    | none => rfl
    | some vs => simp [h]

/-- Witness for C5 at a freshly constructed knowledge base. -/
theorem C5_witness :
    find_best_answer ⟨mEx, [], [], none, none⟩ (chars "hello") (7 / 10) =
      (fallback_no_info, 0) :=
  C5_uninitialized_returns_fixed_fallback ⟨mEx, [], [], none, none⟩
    (chars "hello") (7 / 10) (Or.inl rfl)

/-- C6: calling `build_index` twice in a row with no change to the
questions/answers lists in between yields a state on which
`find_best_answer` returns the identical `(answer, confidence)` pair for
every query and threshold as after the first build (the embedding model is
a fixed deterministic function). -/
theorem C6_build_index_idempotent (kb : KnowledgeBase) (q : List Char)
    (t : ℚ) :
    find_best_answer ((build_index (build_index kb).1).1) q t =
      find_best_answer ((build_index kb).1) q t := by
  rw [build_index_twice]

/-- C7: the query normalizer applies the alias table in order to the
possibly already-rewritten text; in particular, for the quoted timezone
input the output of `preprocess_query` contains the substring
`"server timezone"` (the `"what timezone"` entry fires first, then the
`"server time"` entry fires on the rewritten text, producing
`"server timezonezone is the server in"`). -/
theorem C7_timezone_alias_canonicalized :
    preprocess_query (chars "what timezone is the server in") =
      chars "server timezonezone is the server in"
  ∧ hasSub (preprocess_query (chars "what timezone is the server in"))
      (chars "server timezone") = true :=
  ⟨by decide, by decide⟩

/-- C8: when `build_index` is called with an empty questions list, it
reports failure (returns `False`) and leaves the whole knowledge-base state
— questions, answers, embedding matrix and index — exactly as it was. -/
theorem C8_build_index_empty_corpus_atomic (kb : KnowledgeBase)
    (h : kb.questions = []) : build_index kb = (kb, false) := by
  simp [build_index, h]

/-- Witness for C8 at a state with an empty corpus but a previously built
index, which survives the failed call untouched. -/
theorem C8_witness :
    build_index ⟨mEx, [], [chars "x"], some [[1]], some [[1]]⟩ =
      (⟨mEx, [], [chars "x"], some [[1]], some [[1]]⟩, false) :=
  C8_build_index_empty_corpus_atomic
    ⟨mEx, [], [chars "x"], some [[1]], some [[1]]⟩ rfl

/-- C9: `find_best_answer` is read-only — for every knowledge-base state,
query and threshold, the state returned alongside the result pair is the
input state unchanged (no field of the knowledge base is mutated). -/
theorem C9_find_best_answer_readonly (kb : KnowledgeBase) (q : List Char)
    (t : ℚ) : (find_best_answer_st kb q t).1 = kb :=
  find_best_answer_st_fst kb q t

/-- C10: caller-supplied thresholds at or below 6/10 are indistinguishable:
the adjusted threshold is floored at 1/2 for both, so `find_best_answer`
returns exactly the same pair. -/
theorem C10_low_thresholds_indistinguishable (kb : KnowledgeBase)
    (q : List Char) (t1 t2 : ℚ) (h1 : t1 ≤ 6 / 10) (h2 : t2 ≤ 6 / 10) :
    find_best_answer kb q t1 = find_best_answer kb q t2 := by
  have e : adjusted_threshold t1 = adjusted_threshold t2 := by
    rw [adjusted_threshold_low t1 h1, adjusted_threshold_low t2 h2]
  unfold find_best_answer find_best_answer_st
  rw [e]

/-- Witness for C10 at thresholds 3/10 and 6/10 on a Ready knowledge base. -/
theorem C10_witness :
    find_best_answer kbEx (chars "a") (3 / 10) =
      find_best_answer kbEx (chars "a") (6 / 10) :=
  C10_low_thresholds_indistinguishable kbEx (chars "a") (3 / 10) (6 / 10)
    (by norm_num) (by norm_num)
